import Mathlib

/-!
Verification of the URDF robot spawner (`src/main.rs`) against its
natural-language specification.

Shallow embedding conventions:
* `f32` scalars are embedded as `ℚ` (exact arithmetic; the claims under
  study are structural, not about rounding).
* `Quat::from_euler` and the trigonometric functions it uses live in the
  `glam` engine library, outside this repository; the embedding is
  parameterised by the sine and cosine functions `s c : ℚ → ℚ` applied at
  half angles, exactly mirroring the axis-angle construction of the engine.
* Bevy `Transform` composition (`mul_transform`) is embedded literally:
  translation is transformed componentwise by scale, rotated, translated;
  rotation and scale compose componentwise.
* The ECS world is embedded as an explicit `SpawnState`: a list of spawned
  entities with parent pointers, the `link_entities` and `link_transforms`
  hash maps as association lists (front insertion = last-insert-wins, the
  `HashMap::insert` overwrite semantics), and the log stream of `warn!` and
  `error!` calls.
* In `spawn_robot` the rust code writes the accumulated transform to the
  `link_transforms` map and to the child entity component in the same
  statement (lines 149-153), and initialises both from the same
  `initial_transform` (lines 90-109); the two stores are in lockstep, so the
  transform assigned to a link body is embedded once, as the map entry
  (`assignedTransform`).
-/

/-- A 3-vector of rationals, embedding `glam::Vec3`. -/
structure Vec3 where
  x : ℚ
  y : ℚ
  z : ℚ
deriving DecidableEq, Repr

namespace Vec3

def zero : Vec3 := ⟨0, 0, 0⟩

def one : Vec3 := ⟨1, 1, 1⟩

def add (a b : Vec3) : Vec3 := ⟨a.x + b.x, a.y + b.y, a.z + b.z⟩

/-- Componentwise (Hadamard) product, the semantics of `glam` `Vec3 * Vec3`. -/
def hmulV (a b : Vec3) : Vec3 := ⟨a.x * b.x, a.y * b.y, a.z * b.z⟩

def smul (q : ℚ) (v : Vec3) : Vec3 := ⟨q * v.x, q * v.y, q * v.z⟩

def dotV (a b : Vec3) : ℚ := a.x * b.x + a.y * b.y + a.z * b.z

def cross (a b : Vec3) : Vec3 :=
  ⟨a.y * b.z - a.z * b.y, a.z * b.x - a.x * b.z, a.x * b.y - a.y * b.x⟩

instance : Add Vec3 := ⟨Vec3.add⟩

instance : Mul Vec3 := ⟨Vec3.hmulV⟩

instance : SMul ℚ Vec3 := ⟨Vec3.smul⟩

end Vec3

/-- A quaternion with `x y z` imaginary parts and `w` real part, embedding
`glam::Quat`. -/
structure Quat where
  x : ℚ
  y : ℚ
  z : ℚ
  w : ℚ
deriving DecidableEq, Repr

namespace Quat

/-- The identity rotation. -/
def one : Quat := ⟨0, 0, 0, 1⟩

/-- Hamilton product, the semantics of `glam` quaternion multiplication. -/
def mul (a b : Quat) : Quat :=
  ⟨a.w * b.x + a.x * b.w + a.y * b.z - a.z * b.y,
   a.w * b.y - a.x * b.z + a.y * b.w + a.z * b.x,
   a.w * b.z + a.x * b.y - a.y * b.x + a.z * b.w,
   a.w * b.w - a.x * b.x - a.y * b.y - a.z * b.z⟩

instance : Mul Quat := ⟨Quat.mul⟩

instance : One Quat := ⟨Quat.one⟩

/-- Rotation of a vector by a (unit) quaternion, the `glam` `mul_vec3`
formula `v*(w*w - b.b) + b*(v.b * 2) + (b x v)*(w * 2)` with `b` the
imaginary part. -/
def mulVec3 (q : Quat) (v : Vec3) : Vec3 :=
  let b : Vec3 := ⟨q.x, q.y, q.z⟩
  (q.w * q.w - Vec3.dotV b b) • v + (Vec3.dotV v b * 2) • b
    + (q.w * 2) • Vec3.cross b v

end Quat

/-- A bevy `Transform`: translation, rotation and non-uniform scale. -/
structure Transform where
  translation : Vec3
  rotation : Quat
  scale : Vec3
deriving DecidableEq, Repr

namespace Transform

/-- `Transform::IDENTITY`. -/
def IDENTITY : Transform := ⟨Vec3.zero, Quat.one, Vec3.one⟩

/-- Bevy `mul_transform` / `Transform * Transform`: the translation of the
right factor is scaled, rotated, then offset by the left factor; rotations
and scales compose componentwise. -/
def mulT (a b : Transform) : Transform :=
  ⟨a.translation + a.rotation.mulVec3 (a.scale * b.translation),
   a.rotation * b.rotation,
   a.scale * b.scale⟩

instance : Mul Transform := ⟨Transform.mulT⟩

end Transform

/-- Quaternion for a rotation of `a` radians about the X axis, written with
the half-angle sine and cosine supplied as parameters `s c`. -/
def quatRotX (s c : ℚ → ℚ) (a : ℚ) : Quat := ⟨s (a / 2), 0, 0, c (a / 2)⟩

/-- Rotation of `a` radians about the Y axis. -/
def quatRotY (s c : ℚ → ℚ) (a : ℚ) : Quat := ⟨0, s (a / 2), 0, c (a / 2)⟩

/-- Rotation of `a` radians about the Z axis. -/
def quatRotZ (s c : ℚ → ℚ) (a : ℚ) : Quat := ⟨0, 0, s (a / 2), c (a / 2)⟩

/-- `Quat::from_euler(EulerRot::XYZ, r, p, y)`: intrinsic rotations applied
in X, Y, Z order, i.e. the product `qx * qy * qz`. -/
def fromEulerXYZ (s c : ℚ → ℚ) (r p y : ℚ) : Quat :=
  quatRotX s c r * (quatRotY s c p * quatRotZ s c y)

/-- A URDF pose: translation plus roll-pitch-yaw orientation. -/
structure Pose where
  xyz : Vec3
  rpy : Vec3
deriving DecidableEq, Repr

/-- The zero pose, the `urdf_rs` default for absent origins. -/
def Pose.zero : Pose := ⟨Vec3.zero, Vec3.zero⟩

/-- The `urdf_rs::Geometry` tagged union.  `capsule` is the variant of the
format that `main.rs` does not support. -/
inductive Geometry where
  | box (size : Vec3)
  | cylinder (radius length : ℚ)
  | sphere (radius : ℚ)
  | mesh (filename : String) (scale : Option Vec3)
  | capsule (radius length : ℚ)
deriving DecidableEq, Repr

/-- An RGBA color. -/
structure Color4 where
  r : ℚ
  g : ℚ
  b : ℚ
  a : ℚ
deriving DecidableEq, Repr

/-- A URDF material: an optional solid color and an optional texture
reference (embedded by its filename). -/
structure UMaterial where
  color : Option Color4
  texture : Option String
deriving DecidableEq, Repr

/-- A URDF visual entry. -/
structure Visual where
  origin : Pose
  geometry : Geometry
  material : Option UMaterial
deriving DecidableEq, Repr

/-- A URDF collision entry. -/
structure Collision where
  origin : Pose
  geometry : Geometry
deriving DecidableEq, Repr

/-- URDF inertial data: mass, the six independent inertia components and
the inertial origin. -/
structure Inertial where
  mass : ℚ
  ixx : ℚ
  ixy : ℚ
  ixz : ℚ
  iyy : ℚ
  iyz : ℚ
  izz : ℚ
  origin : Pose
deriving DecidableEq, Repr

/-- A URDF link. -/
structure Link where
  name : String
  inertial : Inertial
  visual : List Visual
  collision : List Collision
deriving DecidableEq, Repr

/-- The `urdf_rs::JointType` tagged union. -/
inductive JointType where
  | revolute
  | continuous
  | prismatic
  | fixed
  | floating
  | planar
  | spherical
deriving DecidableEq, Repr

/-- A URDF joint limit. -/
structure JointLimit where
  lower : ℚ
  upper : ℚ
deriving DecidableEq, Repr

/-- URDF joint dynamics. -/
structure Dynamics where
  damping : ℚ
  friction : ℚ
deriving DecidableEq, Repr

/-- A URDF joint.  `parent` and `child` are the referenced link names. -/
structure Joint where
  name : String
  joint_type : JointType
  origin : Pose
  parent : String
  child : String
  axis : Vec3
  limit : JointLimit
  dynamics : Option Dynamics
deriving DecidableEq, Repr

/-- A parsed URDF robot: ordered links and ordered joints. -/
structure Robot where
  links : List Link
  joints : List Joint
deriving DecidableEq, Repr

/-- `urdf_to_transform`: translation and XYZ-euler rotation from the pose;
scale is the identity unless the geometry is a mesh with an explicit
scale. -/
def urdf_to_transform (s c : ℚ → ℚ) (origin : Pose) (geometry : Option Geometry) :
    Transform :=
  let scale : Vec3 :=
    match geometry with
    | some (Geometry.mesh _ (some meshScale)) => meshScale
    | _ => Vec3.one
  ⟨origin.xyz, fromEulerXYZ s c origin.rpy.x origin.rpy.y origin.rpy.z, scale⟩

/-- The log stream: one constructor per `warn!` / `error!` call site of
`main.rs` that the claims mention. -/
inductive LogMsg where
  | warnGeometry (g : Geometry)
  | warnTexture (t : String)
  | errJointType (t : JointType)
deriving DecidableEq, Repr

/-- A mesh handle: the default (null) handle, an asset-server load by
filename, or a primitive mesh added to the mesh store. -/
inductive MeshHandle where
  | defaultHandle
  | asset (filename : String)
  | cuboid (x y z : ℚ)
  | cylinderMesh (radius halfHeight : ℚ)
  | sphereMesh (radius : ℚ)
deriving DecidableEq, Repr

/-- A material handle: the default (null) handle, or a standard material
with the given base color and metallic 1.0 added to the material store. -/
inductive MatHandle where
  | defaultMat
  | solid (baseColor : Color4)
deriving DecidableEq, Repr

/-- The default gray `Color::srgba(0.8, 0.8, 0.8, 1.0)`. -/
def grayColor : Color4 := ⟨4/5, 4/5, 4/5, 1⟩

/-- `create_material`: a texture reference wins over everything and falls
back to the default gray with a warning; otherwise the declared color, or
gray when no color or no material is present. -/
def create_material (urdfMaterial : Option UMaterial) : MatHandle × List LogMsg :=
  match urdfMaterial with
  | some material =>
    match material.texture with
    | some urdfTexture => (.solid grayColor, [.warnTexture urdfTexture])
    | none =>
      match material.color with
      | some urdfColor => (.solid urdfColor, [])
      | none => (.solid grayColor, [])
  | none => (.solid grayColor, [])

/-- `visual_to_mesh_and_material`: maps the geometry variant to a mesh
handle and resolves the material; the unsupported variant warns and
returns the default handles. -/
def visual_to_mesh_and_material (visual : Visual) :
    (MeshHandle × MatHandle) × List LogMsg :=
  match visual.geometry with
  | Geometry.mesh filename _ =>
    let (materialHandle, logs) := create_material visual.material
    ((.asset filename, materialHandle), logs)
  | Geometry.box size =>
    let (materialHandle, logs) := create_material visual.material
    ((.cuboid size.x size.y size.z, materialHandle), logs)
  | Geometry.cylinder radius length =>
    let (materialHandle, logs) := create_material visual.material
    ((.cylinderMesh radius (length / 2), materialHandle), logs)
  | Geometry.sphere radius =>
    let (materialHandle, logs) := create_material visual.material
    ((.sphereMesh radius, materialHandle), logs)
  | g => ((.defaultHandle, .defaultMat), [.warnGeometry g])

/-- `collision_to_mesh`: same geometry mapping without a material; the
unsupported variant warns and returns the default handle. -/
def collision_to_mesh (collision : Collision) : MeshHandle × List LogMsg :=
  match collision.geometry with
  | Geometry.mesh filename _ => (.asset filename, [])
  | Geometry.box size => (.cuboid size.x size.y size.z, [])
  | Geometry.cylinder radius length => (.cylinderMesh radius (length / 2), [])
  | Geometry.sphere radius => (.sphereMesh radius, [])
  | g => (.defaultHandle, [.warnGeometry g])

/-- Avian mass properties assembled by `link_to_mass_properties`: the
symmetric inertia matrix rows from the six components, the center of mass
from the inertial origin. -/
structure MassProps where
  mass : ℚ
  inertiaX : Vec3
  inertiaY : Vec3
  inertiaZ : Vec3
  centerOfMass : Vec3
deriving DecidableEq, Repr

/-- `link_to_mass_properties`. -/
def link_to_mass_properties (link : Link) : MassProps :=
  ⟨link.inertial.mass,
   ⟨link.inertial.ixx, link.inertial.ixy, link.inertial.ixz⟩,
   ⟨link.inertial.ixy, link.inertial.iyy, link.inertial.iyz⟩,
   ⟨link.inertial.ixz, link.inertial.iyz, link.inertial.izz⟩,
   link.inertial.origin.xyz⟩

/-- An avian `RevoluteJoint` constraint record.  Modelled from the spec:
the avian builder API is engine code outside this repository; `new` makes a
constraint with zero anchors, zero compliance, zero damping and no angle
limits, and each `with_*` builder call sets the corresponding field. -/
structure RevoluteJoint where
  entity1 : Nat
  entity2 : Nat
  alignedAxis : Vec3
  localAnchor1 : Vec3
  localAnchor2 : Vec3
  damping : ℚ
  compliance : ℚ
  angleLimits : Option (ℚ × ℚ)
deriving DecidableEq, Repr

/-- An avian `FixedJoint` constraint record. -/
structure FixedJoint where
  entity1 : Nat
  entity2 : Nat
deriving DecidableEq, Repr

/-- A spawned physics constraint. -/
inductive Constraint where
  | revolute (j : RevoluteJoint)
  | fixed (j : FixedJoint)
deriving DecidableEq, Repr

/-- `urdf_to_joint`: builds the constraint for a supported joint type, or
logs an error and builds nothing for an unsupported one.  The default
dynamics when the field is absent are damping 10000, friction 0. -/
def urdf_to_joint (entity1 entity2 : Nat) (joint : Joint) :
    Option Constraint × List LogMsg :=
  let dynamics := joint.dynamics.getD ⟨10000, 0⟩
  let axis := joint.axis
  let anchor := joint.origin.xyz
  match joint.joint_type with
  | JointType.revolute =>
    (some (.revolute
      { entity1 := entity1, entity2 := entity2, alignedAxis := axis,
        localAnchor1 := Vec3.zero, localAnchor2 := Vec3.zero,
        damping := dynamics.damping, compliance := 0,
        angleLimits := some (joint.limit.lower, joint.limit.upper) }), [])
  | JointType.continuous =>
    (some (.revolute
      { entity1 := entity1, entity2 := entity2, alignedAxis := axis,
        localAnchor1 := anchor, localAnchor2 := Vec3.zero,
        damping := dynamics.damping, compliance := 0,
        angleLimits := none }), [])
  | JointType.fixed =>
    (some (.fixed ⟨entity1, entity2⟩), [])
  | t => (none, [.errJointType t])

/-- The avian rigid body kinds. -/
inductive RigidBody where
  | Static
  | Kinematic
  | Dynamic
deriving DecidableEq, Repr

/-- The component bundle of a spawned entity that the claims observe. -/
inductive EntityKind where
  | linkBody (name : String) (body : RigidBody) (massProps : MassProps)
  | visualChild (mesh : MeshHandle) (material : MatHandle) (transform : Transform)
  | collisionChild (mesh : MeshHandle) (transform : Transform)
  | jointNode (constraint : Constraint)
deriving DecidableEq, Repr

/-- A spawned ECS entity: its id, its parent in the scene hierarchy (set by
`with_children`, absent for top-level `spawn` calls) and its components. -/
structure Entity where
  id : Nat
  parent : Option Nat
  kind : EntityKind
deriving DecidableEq, Repr

/-- Association-list lookup with the first (most recent) binding winning,
the overwrite semantics of `HashMap::insert`. -/
def flook {α : Type} : List (String × α) → String → Option α
  | [], _ => none
  | (k, v) :: rest, n => if n = k then some v else flook rest n

/-- The evolving world of `spawn_robot`: spawned entities, the
`link_entities` and `link_transforms` maps, and the log stream. -/
structure SpawnState where
  nextId : Nat
  entities : List Entity
  linkEntities : List (String × Nat)
  linkTransforms : List (String × Transform)
  logs : List LogMsg
deriving DecidableEq, Repr

/-- The empty world. -/
def SpawnState.init : SpawnState := ⟨0, [], [], [], []⟩

/-- The initial transform of a link: the externally supplied base transform
for the link named `base_link`, the identity for every other link. -/
def initialTransformFor (base : Transform) (name : String) : Transform :=
  if name = "base_link" then base else Transform.IDENTITY

/-- The rigid body kind of a link: `Kinematic` for the link named
`base_link`, `Dynamic` for every other link. -/
def bodyFor (name : String) : RigidBody :=
  if name = "base_link" then RigidBody.Kinematic else RigidBody.Dynamic

/-- Spawning of one visual child entity under the link entity `lid`. -/
def spawnVisual (s c : ℚ → ℚ) (lid : Nat) (st : SpawnState) (visual : Visual) :
    SpawnState :=
  let r := visual_to_mesh_and_material visual
  let transform := urdf_to_transform s c visual.origin (some visual.geometry)
  { st with
    nextId := st.nextId + 1,
    entities := st.entities
      ++ [⟨st.nextId, some lid, .visualChild r.1.1 r.1.2 transform⟩],
    logs := st.logs ++ r.2 }

/-- Spawning of one collision child entity under the link entity `lid`,
carrying the convex-decomposition collider constructor. -/
def spawnCollision (s c : ℚ → ℚ) (lid : Nat) (st : SpawnState) (collision : Collision) :
    SpawnState :=
  let r := collision_to_mesh collision
  let transform := urdf_to_transform s c collision.origin (some collision.geometry)
  { st with
    nextId := st.nextId + 1,
    entities := st.entities
      ++ [⟨st.nextId, some lid, .collisionChild r.1 transform⟩],
    logs := st.logs ++ r.2 }

/-- One iteration of the link loop of `spawn_robot` (lines 80-138): spawn
the link body, record its entity and initial transform, then spawn its
visual and collision children. -/
def spawnLink (s c : ℚ → ℚ) (base : Transform) (st : SpawnState) (link : Link) :
    SpawnState :=
  let t0 := initialTransformFor base link.name
  let lid := st.nextId
  let st1 : SpawnState :=
    { st with
      nextId := lid + 1,
      entities := st.entities
        ++ [⟨lid, none, .linkBody link.name (bodyFor link.name)
              (link_to_mass_properties link)⟩],
      linkEntities := (link.name, lid) :: st.linkEntities,
      linkTransforms := (link.name, t0) :: st.linkTransforms }
  let st2 := link.visual.foldl (spawnVisual s c lid) st1
  link.collision.foldl (spawnCollision s c lid) st2

/-- One iteration of the joint loop of `spawn_robot` (lines 140-158): when
both referenced links resolve, accumulate the transform of the child from
the transform of the parent and the joint origin, then build the
constraint; otherwise do nothing. -/
def processJoint (s c : ℚ → ℚ) (st : SpawnState) (joint : Joint) : SpawnState :=
  let jointTransform := urdf_to_transform s c joint.origin none
  match flook st.linkEntities joint.parent, flook st.linkEntities joint.child with
  | some parentEntity, some childEntity =>
    let st1 : SpawnState :=
      match flook st.linkTransforms joint.parent with
      | some parentTransform =>
        { st with linkTransforms :=
            (joint.child, parentTransform * jointTransform) :: st.linkTransforms }
      | none => st
    let r := urdf_to_joint parentEntity childEntity joint
    match r.1 with
    | some constraint =>
      { st1 with
        nextId := st1.nextId + 1,
        entities := st1.entities ++ [⟨st1.nextId, none, .jointNode constraint⟩],
        logs := st1.logs ++ r.2 }
    | none => { st1 with logs := st1.logs ++ r.2 }
  | _, _ => st

/-- `spawn_robot`: all links first, then all joints. -/
def spawn_robot (s c : ℚ → ℚ) (base : Transform) (robot : Robot) : SpawnState :=
  robot.joints.foldl (processJoint s c)
    (robot.links.foldl (spawnLink s c base) SpawnState.init)

/-- The world transform assigned to the physics body of the named link at
the end of `spawn_robot` (initialised at lines 90-109, overwritten in
lockstep with the map at lines 149-153). -/
def assignedTransform (st : SpawnState) (name : String) : Option Transform :=
  flook st.linkTransforms name

/-- One contact point, observed through its penetration depth. -/
structure ContactData where
  penetration : ℚ
deriving DecidableEq, Repr

/-- One contact manifold. -/
structure ContactManifold where
  contacts : List ContactData
deriving DecidableEq, Repr

/-- The contact pair of one pair of colliders. -/
structure Contacts where
  manifolds : List ContactManifold
deriving DecidableEq, Repr

/-- `ignore_collision`: the retained pairs are those in which every contact
of every manifold has penetration at least the threshold. -/
def ignore_collision (ignoreThreshold : ℚ) (contacts : Contacts) : Bool :=
  contacts.manifolds.all fun manifold =>
    manifold.contacts.all fun contact =>
      decide (ignoreThreshold ≤ contact.penetration)

/-- `collision_callback`: retain exactly the pairs accepted by
`ignore_collision 0.01`. -/
def collision_callback (collisions : List Contacts) : List Contacts :=
  collisions.filter (ignore_collision (1/100))

/-- Follows the wording of the spec for claim C2: the maximum contact
penetration depth over all manifolds of a pair (0 when there is none). -/
def claimMaxPenetration (contactPair : Contacts) : ℚ :=
  ((contactPair.manifolds.foldr (fun m acc => m.contacts ++ acc) []).map
    (fun ct => ct.penetration)).foldl max 0

/-- Axis-angle quaternion for a rotation of `theta` about `a`, with the
half-angle sine and cosine supplied as parameters `s c`. -/
def axisAngleQuat (s c : ℚ → ℚ) (theta : ℚ) (a : Vec3) : Quat :=
  ⟨s (theta / 2) * a.x, s (theta / 2) * a.y, s (theta / 2) * a.z, c (theta / 2)⟩

/-- Normalisation of a vector, with the square root supplied as the
parameter `sq`. -/
def specNormalize (sq : ℚ → ℚ) (v : Vec3) : Vec3 :=
  (1 / sq (Vec3.dotV v v)) • v

/-- Modelled from the spec: the joint controller of section 4.6 is not in
`src/` (the `apply_joint_torque_system` of `main.rs` lines 370-375 reads the
joint entities and performs no update); per the spec, setting the scalar
position of a rotational joint to `theta` recomputes the child local
transform as the joint rest (origin) transform composed with the axis-angle
rotation of `theta` about the normalised joint axis. -/
def controllerChildLocal (s c sq : ℚ → ℚ) (joint : Joint) (theta : ℚ) : Transform :=
  urdf_to_transform s c joint.origin none
    * ⟨Vec3.zero, axisAngleQuat s c theta (specNormalize sq joint.axis), Vec3.one⟩

/-- `apply_joint_torque_system` as written in `main.rs`: it binds the two
entities of each revolute joint to unused variables and mutates nothing. -/
def apply_joint_torque_system (st : SpawnState) : SpawnState := st

@[simp] theorem Vec3.add_def (a b : Vec3) :
    a + b = ⟨a.x + b.x, a.y + b.y, a.z + b.z⟩ := rfl

@[simp] theorem Vec3.hmul_def (a b : Vec3) :
    a * b = ⟨a.x * b.x, a.y * b.y, a.z * b.z⟩ := rfl

@[simp] theorem Vec3.smul_def (q : ℚ) (v : Vec3) :
    q • v = ⟨q * v.x, q * v.y, q * v.z⟩ := rfl

@[simp] theorem Quat.mulQ_def (a b : Quat) :
    a * b = ⟨a.w * b.x + a.x * b.w + a.y * b.z - a.z * b.y,
             a.w * b.y - a.x * b.z + a.y * b.w + a.z * b.x,
             a.w * b.z + a.x * b.y - a.y * b.x + a.z * b.w,
             a.w * b.w - a.x * b.x - a.y * b.y - a.z * b.z⟩ := rfl

@[simp] theorem Transform.mulT_def (a b : Transform) :
    a * b = ⟨a.translation + a.rotation.mulVec3 (a.scale * b.translation),
             a.rotation * b.rotation, a.scale * b.scale⟩ := rfl

/-- Multiplication by the identity quaternion on the left. -/
theorem Quat.one_mulQ (q : Quat) : Quat.one * q = q := by
  simp [Quat.one]

/-- Multiplication by the identity quaternion on the right. -/
theorem Quat.mulQ_one (q : Quat) : q * Quat.one = q := by
  simp [Quat.one]

/-- Rotation of the zero vector is the zero vector. -/
theorem Quat.mulVec3_zero (q : Quat) : q.mulVec3 Vec3.zero = Vec3.zero := by
  simp [Quat.mulVec3, Vec3.zero, Vec3.dotV, Vec3.cross]

/-- Componentwise product with the all-ones vector. -/
theorem Vec3.hmul_one (v : Vec3) : v * Vec3.one = v := by
  simp [Vec3.one]

/-- Right multiplication by the identity transform. -/
theorem Transform.mulT_one (t : Transform) : t * Transform.IDENTITY = t := by
  cases t with
  | mk tr rot sc =>
    cases tr
    cases rot
    cases sc
    simp [Transform.IDENTITY, Quat.one, Vec3.one, Vec3.zero, Quat.mulVec3, Vec3.dotV, Vec3.cross]

/-- A sine stand-in used to instantiate the trigonometric parameters at
concrete inputs whose poses carry no rotation. -/
def s0 : ℚ → ℚ := fun _ => 0

/-- A cosine stand-in matching `s0`. -/
def c0 : ℚ → ℚ := fun _ => 1

/-- A square-root stand-in for unit-length inputs. -/
def sq1 : ℚ → ℚ := fun _ => 1

/-- Inertial data with every component zero. -/
def zeroInertial : Inertial := ⟨0, 0, 0, 0, 0, 0, 0, Pose.zero⟩

/-- A bare link with the given name. -/
def mkLink (n : String) : Link := ⟨n, zeroInertial, [], []⟩

/-- A joint of the given type between the named links, with origin `o`,
axis Z, zero limits and no dynamics. -/
def mkJoint (t : JointType) (p ch : String) (o : Pose) : Joint :=
  ⟨p ++ "_to_" ++ ch, t, o, p, ch, ⟨0, 0, 1⟩, ⟨0, 0⟩, none⟩

/-- A base transform translated 7 units along Z. -/
def base7 : Transform := ⟨⟨0, 0, 7⟩, Quat.one, Vec3.one⟩

/-- Whether an entity is a physics-constraint node. -/
def isJointNodeB (e : Entity) : Bool :=
  match e.kind with
  | .jointNode _ => true
  | _ => false

/-- Whether an entity is a link body. -/
def isLinkBodyB (e : Entity) : Bool :=
  match e.kind with
  | .linkBody _ _ _ => true
  | _ => false

/-- Whether an entity is a collision child. -/
def isCollisionChildB (e : Entity) : Bool :=
  match e.kind with
  | .collisionChild _ _ => true
  | _ => false

/-- Whether `main.rs` builds a constraint for the joint type: exactly the
Revolute, Continuous and Fixed arms of `urdf_to_joint`. -/
def supportedJointB (j : Joint) : Bool :=
  match j.joint_type with
  | .revolute | .continuous | .fixed => true
  | _ => false

/-- C2 (amended): the per-step filter retains exactly the contact pairs in
which every contact of every manifold has penetration at least 0.01 (it
keys on the minimum, not the maximum, penetration of a pair); in
particular a single-contact pair of penetration 0.005 is discarded and one
of penetration 0.02 is retained. -/
theorem C2_filter_retains_all_contacts_deep :
    (∀ (collisions : List Contacts) (p : Contacts),
      p ∈ collision_callback collisions ↔
        p ∈ collisions ∧ ∀ m ∈ p.manifolds, ∀ ct ∈ m.contacts,
          (1 : ℚ)/100 ≤ ct.penetration)
    ∧ collision_callback [⟨[⟨[⟨5/1000⟩]⟩]⟩] = []
    ∧ collision_callback [⟨[⟨[⟨2/100⟩]⟩]⟩] = [⟨[⟨[⟨2/100⟩]⟩]⟩] := by
  refine ⟨fun collisions p => ?_, ?_, ?_⟩
  · simp [collision_callback, List.mem_filter, ignore_collision, List.all_eq_true]
  · norm_num [collision_callback, ignore_collision, List.filter]
  · norm_num [collision_callback, ignore_collision, List.filter]

/-- C2 counterexample: a pair with two contacts of penetrations 0.005 and
0.02 has maximum penetration 0.02, at least the threshold, so the claim
says it is retained; the code discards it because one contact is shallow. -/
theorem C2_counterexample :
    collision_callback [⟨[⟨[⟨5/1000⟩, ⟨2/100⟩]⟩]⟩] = []
    ∧ ¬ claimMaxPenetration ⟨[⟨[⟨5/1000⟩, ⟨2/100⟩]⟩]⟩ < 1/100 := by
  constructor
  · norm_num [collision_callback, ignore_collision, List.filter]
  · norm_num [claimMaxPenetration, max_def]

/-- C6 (amended): a Continuous joint builds the constraint that the
Revolute joint with the same fields would build, except that it has no
angle limits and that it additionally anchors body 1 at the joint origin
translation, which the Revolute arm leaves at the default zero anchor. -/
theorem C6_continuous_vs_revolute (entity1 entity2 : Nat) (j : Joint) :
    ∃ r : RevoluteJoint,
      urdf_to_joint entity1 entity2 { j with joint_type := JointType.revolute }
        = (some (.revolute r), [])
      ∧ urdf_to_joint entity1 entity2 { j with joint_type := JointType.continuous }
        = (some (.revolute
            { r with angleLimits := none, localAnchor1 := j.origin.xyz }), []) :=
  ⟨_, rfl, rfl⟩

/-- A joint whose origin translation is the nonzero vector (0, 1, 0). -/
def c6joint : Joint := mkJoint JointType.revolute "base_link" "arm" ⟨⟨0, 1, 0⟩, Vec3.zero⟩

/-- The constraint the Revolute arm of `urdf_to_joint` builds for
`c6joint`. -/
def c6rev : RevoluteJoint :=
  { entity1 := 0, entity2 := 1, alignedAxis := ⟨0, 0, 1⟩,
    localAnchor1 := Vec3.zero, localAnchor2 := Vec3.zero,
    damping := 10000, compliance := 0, angleLimits := some (0, 0) }

/-- C6 counterexample: for a joint with origin translation (0, 1, 0) the
Continuous constraint is not the Revolute constraint with the limits
removed, because the Continuous arm also sets local anchor 1. -/
theorem C6_counterexample :
    urdf_to_joint 0 1 c6joint = (some (.revolute c6rev), [])
    ∧ urdf_to_joint 0 1 { c6joint with joint_type := JointType.continuous }
      ≠ (some (.revolute { c6rev with angleLimits := none }), []) := by
  constructor
  · rfl
  · intro h
    simp [urdf_to_joint, c6joint, c6rev, mkJoint, Vec3.zero] at h

/-- C10: when the material of a visual carries a texture reference,
`create_material` warns and resolves to the default gray
(0.8, 0.8, 0.8, 1.0) even when the same material also declares a base
color: the texture check comes first and the declared color is ignored. -/
theorem C10_texture_precedence (m : UMaterial) (t : String) (col : Color4)
    (ht : m.texture = some t) (_hcol : m.color = some col) :
    create_material (some m) = (.solid grayColor, [.warnTexture t]) := by
  simp [create_material, ht]

/-- C10 witness: a red material with a texture resolves to gray with a
warning. -/
theorem C10_witness :
    (⟨some ⟨1/2, 0, 0, 1⟩, some "diffuse.png"⟩ : UMaterial).texture = some "diffuse.png"
    ∧ (⟨some ⟨1/2, 0, 0, 1⟩, some "diffuse.png"⟩ : UMaterial).color = some ⟨1/2, 0, 0, 1⟩
    ∧ create_material (some ⟨some ⟨1/2, 0, 0, 1⟩, some "diffuse.png"⟩)
      = (.solid grayColor, [.warnTexture "diffuse.png"]) :=
  ⟨rfl, rfl, C10_texture_precedence _ "diffuse.png" ⟨1/2, 0, 0, 1⟩ rfl rfl⟩

/-- C9: for a Revolute or Continuous joint whose rest orientation is the
identity rotation, setting the (spec-modelled) controller position to
`theta` gives a child local rotation equal to the axis-angle rotation of
`theta` about the normalised joint axis, and at position 0 the child local
transform is exactly the rest (origin) transform.  The identity-rest
hypothesis is forced by the claim itself: its two clauses jointly require
the rest rotation to vanish. -/
theorem C9_controller_axis_angle (s c sq : ℚ → ℚ) (j : Joint) (theta : ℚ)
    (_ht : j.joint_type = JointType.revolute ∨ j.joint_type = JointType.continuous)
    (hs : s 0 = 0) (hc : c 0 = 1)
    (hrest : fromEulerXYZ s c j.origin.rpy.x j.origin.rpy.y j.origin.rpy.z = Quat.one) :
    (controllerChildLocal s c sq j theta).rotation
      = axisAngleQuat s c theta (specNormalize sq j.axis)
    ∧ controllerChildLocal s c sq j 0 = urdf_to_transform s c j.origin none := by
  constructor
  · show (urdf_to_transform s c j.origin none).rotation
      * axisAngleQuat s c theta (specNormalize sq j.axis) = _
    rw [show (urdf_to_transform s c j.origin none).rotation
        = fromEulerXYZ s c j.origin.rpy.x j.origin.rpy.y j.origin.rpy.z from rfl,
      hrest, Quat.one_mulQ]
  · have h0 : axisAngleQuat s c 0 (specNormalize sq j.axis) = Quat.one := by
      simp [axisAngleQuat, Quat.one, hs, hc]
    unfold controllerChildLocal
    rw [h0]
    exact Transform.mulT_one _

/-- A Revolute joint with zero origin used to instantiate C9. -/
def c9joint : Joint := mkJoint JointType.revolute "base_link" "arm" Pose.zero

/-- C9 witness: the controller theorem applied to `c9joint` at position 1. -/
theorem C9_witness :
    (c9joint.joint_type = JointType.revolute ∨ c9joint.joint_type = JointType.continuous)
    ∧ s0 0 = 0 ∧ c0 0 = 1
    ∧ fromEulerXYZ s0 c0 c9joint.origin.rpy.x c9joint.origin.rpy.y c9joint.origin.rpy.z
        = Quat.one
    ∧ ((controllerChildLocal s0 c0 sq1 c9joint 1).rotation
        = axisAngleQuat s0 c0 1 (specNormalize sq1 c9joint.axis)
       ∧ controllerChildLocal s0 c0 sq1 c9joint 0
        = urdf_to_transform s0 c0 c9joint.origin none) := by
  have hrest : fromEulerXYZ s0 c0 c9joint.origin.rpy.x c9joint.origin.rpy.y
      c9joint.origin.rpy.z = Quat.one := by
    norm_num [fromEulerXYZ, quatRotX, quatRotY, quatRotZ, s0, c0, Quat.one]
  exact ⟨Or.inl rfl, rfl, rfl, hrest,
    C9_controller_axis_angle s0 c0 sq1 c9joint 1 (Or.inl rfl) rfl rfl hrest⟩

/-- Folding preserves any invariant preserved by each step. -/
theorem foldl_pres {α β : Type} (P : β → Prop) (f : β → α → β)
    (h : ∀ st a, P st → P (f st a)) :
    ∀ (l : List α) (st : β), P st → P (l.foldl f st) := by
  intro l
  induction l with
  | nil => intro st h0; exact h0
  | cons a l ih => intro st h0; exact ih _ (h _ _ h0)

/-- Folding preserves any state projection preserved by each step. -/
theorem foldl_proj {α β γ : Type} (f : β → α → β) (g : β → γ)
    (hg : ∀ st a, g (f st a) = g st) :
    ∀ (l : List α) (st : β), g (l.foldl f st) = g st := by
  intro l
  induction l with
  | nil => intro st; rfl
  | cons a l ih => intro st; rw [List.foldl_cons, ih, hg]

/-- `spawnVisual` does not touch the link-entity map. -/
theorem spawnVisual_linkEntities (s c : ℚ → ℚ) (lid : Nat) (st : SpawnState) (v : Visual) :
    (spawnVisual s c lid st v).linkEntities = st.linkEntities := rfl

/-- `spawnVisual` does not touch the link-transform map. -/
theorem spawnVisual_linkTransforms (s c : ℚ → ℚ) (lid : Nat) (st : SpawnState) (v : Visual) :
    (spawnVisual s c lid st v).linkTransforms = st.linkTransforms := rfl

/-- `spawnCollision` does not touch the link-entity map. -/
theorem spawnCollision_linkEntities (s c : ℚ → ℚ) (lid : Nat) (st : SpawnState) (col : Collision) :
    (spawnCollision s c lid st col).linkEntities = st.linkEntities := rfl

/-- `spawnCollision` does not touch the link-transform map. -/
theorem spawnCollision_linkTransforms (s c : ℚ → ℚ) (lid : Nat) (st : SpawnState) (col : Collision) :
    (spawnCollision s c lid st col).linkTransforms = st.linkTransforms := rfl

/-- `processJoint` does not touch the link-entity map. -/
theorem processJoint_linkEntities (s c : ℚ → ℚ) (st : SpawnState) (j : Joint) :
    (processJoint s c st j).linkEntities = st.linkEntities := by
  unfold processJoint
  split
  case _ pe ce _ =>
    dsimp only
    split <;> split <;> rfl
  case _ => rfl

/-- One state extends another when its entity and log lists only grew. -/
def StExt (st stB : SpawnState) : Prop :=
  (∃ t, stB.entities = st.entities ++ t) ∧ (∃ t, stB.logs = st.logs ++ t)

/-- Extension is reflexive. -/
theorem StExt.refl (st : SpawnState) : StExt st st :=
  ⟨⟨[], (List.append_nil _).symm⟩, ⟨[], (List.append_nil _).symm⟩⟩

/-- Extension is transitive. -/
theorem StExt.trans {a b d : SpawnState} (h1 : StExt a b) (h2 : StExt b d) : StExt a d := by
  obtain ⟨⟨t1, he1⟩, ⟨u1, hl1⟩⟩ := h1
  obtain ⟨⟨t2, he2⟩, ⟨u2, hl2⟩⟩ := h2
  exact ⟨⟨t1 ++ t2, by rw [he2, he1, List.append_assoc]⟩,
         ⟨u1 ++ u2, by rw [hl2, hl1, List.append_assoc]⟩⟩

/-- Entity membership is preserved by extension. -/
theorem StExt.mem_entities {st stB : SpawnState} (h : StExt st stB) {e : Entity}
    (he : e ∈ st.entities) : e ∈ stB.entities := by
  obtain ⟨⟨t, ht⟩, _⟩ := h
  rw [ht]
  exact List.mem_append_left _ he

/-- Log membership is preserved by extension. -/
theorem StExt.mem_logs {st stB : SpawnState} (h : StExt st stB) {l : LogMsg}
    (hl : l ∈ st.logs) : l ∈ stB.logs := by
  obtain ⟨_, ⟨t, ht⟩⟩ := h
  rw [ht]
  exact List.mem_append_left _ hl

/-- `spawnVisual` extends the state. -/
theorem stExt_spawnVisual (s c : ℚ → ℚ) (lid : Nat) (st : SpawnState) (v : Visual) :
    StExt st (spawnVisual s c lid st v) :=
  ⟨⟨_, rfl⟩, ⟨_, rfl⟩⟩

/-- `spawnCollision` extends the state. -/
theorem stExt_spawnCollision (s c : ℚ → ℚ) (lid : Nat) (st : SpawnState) (col : Collision) :
    StExt st (spawnCollision s c lid st col) :=
  ⟨⟨_, rfl⟩, ⟨_, rfl⟩⟩

/-- A fold of extending steps extends the state. -/
theorem stExt_foldl {α : Type} (f : SpawnState → α → SpawnState)
    (h : ∀ st a, StExt st (f st a)) :
    ∀ (l : List α) (st : SpawnState), StExt st (l.foldl f st) := by
  intro l
  induction l with
  | nil => intro st; exact StExt.refl st
  | cons a l ih => intro st; exact StExt.trans (h st a) (ih (f st a))

/-- `spawnLink` extends the state. -/
theorem stExt_spawnLink (s c : ℚ → ℚ) (base : Transform) (st : SpawnState) (link : Link) :
    StExt st (spawnLink s c base st link) := by
  have h1 : StExt st
      { st with
        nextId := st.nextId + 1,
        entities := st.entities
          ++ [⟨st.nextId, none, .linkBody link.name (bodyFor link.name)
                (link_to_mass_properties link)⟩],
        linkEntities := (link.name, st.nextId) :: st.linkEntities,
        linkTransforms :=
          (link.name, initialTransformFor base link.name) :: st.linkTransforms } :=
    ⟨⟨_, rfl⟩, ⟨[], (List.append_nil _).symm⟩⟩
  exact StExt.trans
    (StExt.trans h1 (stExt_foldl _ (stExt_spawnVisual s c st.nextId) link.visual _))
    (stExt_foldl _ (stExt_spawnCollision s c st.nextId) link.collision _)

/-- `processJoint` extends the state. -/
theorem stExt_processJoint (s c : ℚ → ℚ) (st : SpawnState) (j : Joint) :
    StExt st (processJoint s c st j) := by
  unfold processJoint
  split
  case _ pe ce _ =>
    dsimp only
    split <;> split <;>
      first
        | exact ⟨⟨_, rfl⟩, ⟨_, rfl⟩⟩
        | exact ⟨⟨[], (List.append_nil _).symm⟩, ⟨_, rfl⟩⟩
  case _ => exact StExt.refl st

/-- The link-transform map after `spawnLink` gains exactly the initial
transform of the spawned link. -/
theorem spawnLink_linkTransforms (s c : ℚ → ℚ) (base : Transform) (st : SpawnState)
    (link : Link) :
    (spawnLink s c base st link).linkTransforms
      = (link.name, initialTransformFor base link.name) :: st.linkTransforms := by
  unfold spawnLink
  dsimp only
  rw [foldl_proj _ SpawnState.linkTransforms (spawnCollision_linkTransforms s c st.nextId),
      foldl_proj _ SpawnState.linkTransforms (spawnVisual_linkTransforms s c st.nextId)]

/-- The link-entity map after `spawnLink` gains exactly the id of the
spawned link. -/
theorem spawnLink_linkEntities (s c : ℚ → ℚ) (base : Transform) (st : SpawnState)
    (link : Link) :
    (spawnLink s c base st link).linkEntities = (link.name, st.nextId) :: st.linkEntities := by
  unfold spawnLink
  dsimp only
  rw [foldl_proj _ SpawnState.linkEntities (spawnCollision_linkEntities s c st.nextId),
      foldl_proj _ SpawnState.linkEntities (spawnVisual_linkEntities s c st.nextId)]

/-- Lookup in the link-transform map after the link loop: any link of the
list resolves to its name-determined initial transform. -/
theorem flook_linkTransforms_fold (s c : ℚ → ℚ) (base : Transform) :
    ∀ (links : List Link) (st : SpawnState) (n : String),
      flook (links.foldl (spawnLink s c base) st).linkTransforms n
        = if links.any (fun l => l.name == n) then some (initialTransformFor base n)
          else flook st.linkTransforms n := by
  intro links
  induction links with
  | nil => intro st n; simp
  | cons l ls ih =>
    intro st n
    rw [List.foldl_cons, ih, spawnLink_linkTransforms]
    by_cases hn : l.name = n
    · subst hn
      by_cases ha : (ls.any fun l2 => l2.name == l.name) = true <;>
        simp [List.any_cons, ha, flook]
    · have hn2 : ¬ n = l.name := fun h => hn h.symm
      by_cases ha : (ls.any fun l2 => l2.name == n) = true <;>
        simp [List.any_cons, ha, flook, hn, hn2]

/-- Lookup success in the link-entity map after the link loop is exactly
name membership in the processed links. -/
theorem flook_linkEntities_fold (s c : ℚ → ℚ) (base : Transform) :
    ∀ (links : List Link) (st : SpawnState) (n : String),
      (flook (links.foldl (spawnLink s c base) st).linkEntities n).isSome
        = (links.any (fun l => l.name == n) || (flook st.linkEntities n).isSome) := by
  intro links
  induction links with
  | nil => intro st n; simp
  | cons l ls ih =>
    intro st n
    rw [List.foldl_cons, ih, spawnLink_linkEntities]
    by_cases hn : l.name = n
    · subst hn
      by_cases ha : (ls.any fun l2 => l2.name == l.name) = true <;>
        simp [List.any_cons, ha, flook]
    · have hn2 : ¬ n = l.name := fun h => hn h.symm
      by_cases ha : (ls.any fun l2 => l2.name == n) = true <;>
        simp [List.any_cons, ha, flook, hn, hn2]

/-- Whether both link names of a joint resolve in the link-entity map of
the state, the guard of the joint loop. -/
def resolveB (st : SpawnState) (j : Joint) : Bool :=
  (flook st.linkEntities j.parent).isSome && (flook st.linkEntities j.child).isSome

/-- `urdf_to_joint` builds a constraint exactly for the supported types. -/
theorem urdf_to_joint_isSome (entity1 entity2 : Nat) (j : Joint) :
    (urdf_to_joint entity1 entity2 j).1.isSome = supportedJointB j := by
  unfold urdf_to_joint supportedJointB
  cases j.joint_type <;> rfl

/-- `spawnVisual` spawns no link body. -/
theorem linkCount_spawnVisual (s c : ℚ → ℚ) (lid : Nat) (st : SpawnState) (v : Visual) :
    (spawnVisual s c lid st v).entities.countP isLinkBodyB
      = st.entities.countP isLinkBodyB := by
  simp [spawnVisual, List.countP_append, isLinkBodyB]

/-- `spawnCollision` spawns no link body. -/
theorem linkCount_spawnCollision (s c : ℚ → ℚ) (lid : Nat) (st : SpawnState) (col : Collision) :
    (spawnCollision s c lid st col).entities.countP isLinkBodyB
      = st.entities.countP isLinkBodyB := by
  simp [spawnCollision, List.countP_append, isLinkBodyB]

/-- `spawnVisual` spawns no constraint node. -/
theorem jointCount_spawnVisual (s c : ℚ → ℚ) (lid : Nat) (st : SpawnState) (v : Visual) :
    (spawnVisual s c lid st v).entities.countP isJointNodeB
      = st.entities.countP isJointNodeB := by
  simp [spawnVisual, List.countP_append, isJointNodeB]

/-- `spawnCollision` spawns no constraint node. -/
theorem jointCount_spawnCollision (s c : ℚ → ℚ) (lid : Nat) (st : SpawnState) (col : Collision) :
    (spawnCollision s c lid st col).entities.countP isJointNodeB
      = st.entities.countP isJointNodeB := by
  simp [spawnCollision, List.countP_append, isJointNodeB]

/-- Folding a step that preserves an entity count preserves it. -/
theorem foldl_count {α : Type} (f : SpawnState → α → SpawnState) (p : Entity → Bool)
    (h : ∀ st a, (f st a).entities.countP p = st.entities.countP p) :
    ∀ (l : List α) (st : SpawnState),
      ((l.foldl f st).entities.countP p) = st.entities.countP p := by
  intro l
  induction l with
  | nil => intro st; rfl
  | cons a l ih => intro st; rw [List.foldl_cons, ih, h]

/-- `spawnLink` spawns exactly one link body. -/
theorem linkCount_spawnLink (s c : ℚ → ℚ) (base : Transform) (st : SpawnState) (link : Link) :
    (spawnLink s c base st link).entities.countP isLinkBodyB
      = st.entities.countP isLinkBodyB + 1 := by
  unfold spawnLink
  dsimp only
  rw [foldl_count _ _ (linkCount_spawnCollision s c st.nextId),
      foldl_count _ _ (linkCount_spawnVisual s c st.nextId)]
  simp [List.countP_append, isLinkBodyB]

/-- `spawnLink` spawns no constraint node. -/
theorem jointCount_spawnLink (s c : ℚ → ℚ) (base : Transform) (st : SpawnState) (link : Link) :
    (spawnLink s c base st link).entities.countP isJointNodeB
      = st.entities.countP isJointNodeB := by
  unfold spawnLink
  dsimp only
  rw [foldl_count _ _ (jointCount_spawnCollision s c st.nextId),
      foldl_count _ _ (jointCount_spawnVisual s c st.nextId)]
  simp [List.countP_append, isJointNodeB]

/-- `processJoint` spawns no link body. -/
theorem linkCount_processJoint (s c : ℚ → ℚ) (st : SpawnState) (j : Joint) :
    (processJoint s c st j).entities.countP isLinkBodyB
      = st.entities.countP isLinkBodyB := by
  unfold processJoint
  split
  case _ pe ce _ =>
    dsimp only
    split <;> split <;> simp [List.countP_append, isLinkBodyB]
  case _ => rfl

/-- `processJoint` spawns one constraint node exactly when both link names
resolve and the joint type is supported. -/
theorem jointCount_processJoint (s c : ℚ → ℚ) (st : SpawnState) (j : Joint) :
    (processJoint s c st j).entities.countP isJointNodeB
      = st.entities.countP isJointNodeB
        + (if resolveB st j && supportedJointB j then 1 else 0) := by
  cases hpe : flook st.linkEntities j.parent with
  | none =>
    have hres : resolveB st j = false := by simp [resolveB, hpe]
    simp [processJoint, hpe, hres]
  | some pe =>
    cases hce : flook st.linkEntities j.child with
    | none =>
      have hres : resolveB st j = false := by simp [resolveB, hpe, hce]
      simp [processJoint, hpe, hce, hres]
    | some ce =>
      have hres : resolveB st j = true := by simp [resolveB, hpe, hce]
      cases hu : (urdf_to_joint pe ce j).1 with
      | none =>
        have hsup : supportedJointB j = false := by
          rw [← urdf_to_joint_isSome pe ce j, hu]
          rfl
        cases hpt : flook st.linkTransforms j.parent <;>
          simp [processJoint, hpe, hce, hu, hpt, hres, hsup]
      | some cst =>
        have hsup : supportedJointB j = true := by
          rw [← urdf_to_joint_isSome pe ce j, hu]
          rfl
        cases hpt : flook st.linkTransforms j.parent <;>
          simp [processJoint, hpe, hce, hu, hpt, hres, hsup,
            List.countP_append, isJointNodeB]

/-- The link loop spawns one link body per parsed link. -/
theorem linkCount_link_fold (s c : ℚ → ℚ) (base : Transform) :
    ∀ (links : List Link) (st : SpawnState),
      ((links.foldl (spawnLink s c base) st).entities.countP isLinkBodyB)
        = st.entities.countP isLinkBodyB + links.length := by
  intro links
  induction links with
  | nil => intro st; simp
  | cons l ls ih =>
    intro st
    rw [List.foldl_cons, ih, linkCount_spawnLink]
    simp [Nat.add_comm, Nat.add_assoc, Nat.add_left_comm]

/-- The link loop spawns no constraint node. -/
theorem jointCount_link_fold (s c : ℚ → ℚ) (base : Transform) :
    ∀ (links : List Link) (st : SpawnState),
      ((links.foldl (spawnLink s c base) st).entities.countP isJointNodeB)
        = st.entities.countP isJointNodeB :=
  foldl_count _ _ (jointCount_spawnLink s c base)

/-- The joint loop spawns no link body. -/
theorem linkCount_joint_fold (s c : ℚ → ℚ) :
    ∀ (js : List Joint) (st : SpawnState),
      ((js.foldl (processJoint s c) st).entities.countP isLinkBodyB)
        = st.entities.countP isLinkBodyB :=
  foldl_count _ _ (linkCount_processJoint s c)

/-- The joint loop spawns one constraint node per joint that resolves and
has a supported type; resolution is judged against the link-entity map,
which the loop never changes. -/
theorem jointCount_joint_fold (s c : ℚ → ℚ) :
    ∀ (js : List Joint) (st : SpawnState),
      ((js.foldl (processJoint s c) st).entities.countP isJointNodeB)
        = st.entities.countP isJointNodeB
          + (js.filter fun j => resolveB st j && supportedJointB j).length := by
  intro js
  induction js with
  | nil => intro st; simp
  | cons j js ih =>
    intro st
    rw [List.foldl_cons, ih, jointCount_processJoint]
    have hfil : (js.filter fun jj => resolveB (processJoint s c st j) jj && supportedJointB jj)
        = js.filter fun jj => resolveB st jj && supportedJointB jj :=
      List.filter_congr fun a _ => by simp [resolveB, processJoint_linkEntities]
    rw [hfil, List.filter_cons]
    split
    · simp
      omega
    · simp

/-- C4 (amended): the spawned link bodies are one per parsed link, and the
spawned constraint nodes are one per parsed joint whose parent and child
names both resolve in the link map AND whose type is supported (Revolute,
Continuous or Fixed). -/
theorem C4_entity_counts (s c : ℚ → ℚ) (base : Transform) (robot : Robot) :
    ((spawn_robot s c base robot).entities.countP isLinkBodyB = robot.links.length)
    ∧ ((spawn_robot s c base robot).entities.countP isJointNodeB
        = (robot.joints.filter fun j =>
            (robot.links.any fun l => l.name == j.parent)
            && (robot.links.any fun l => l.name == j.child)
            && supportedJointB j).length) := by
  unfold spawn_robot
  constructor
  · rw [linkCount_joint_fold, linkCount_link_fold]
    simp [SpawnState.init]
  · rw [jointCount_joint_fold, jointCount_link_fold]
    have hres : ∀ j : Joint,
        resolveB (robot.links.foldl (spawnLink s c base) SpawnState.init) j
          = ((robot.links.any fun l => l.name == j.parent)
              && (robot.links.any fun l => l.name == j.child)) := by
      intro j
      unfold resolveB
      rw [flook_linkEntities_fold, flook_linkEntities_fold]
      simp [SpawnState.init, flook]
    rw [List.filter_congr fun a _ => by rw [hres a]]
    simp [SpawnState.init]

/-- A robot with a Prismatic joint whose two link names both resolve. -/
def cr4 : Robot :=
  ⟨[mkLink "base_link", mkLink "arm"],
   [mkJoint JointType.prismatic "base_link" "arm" Pose.zero]⟩

/-- C4 counterexample: the Prismatic joint of `cr4` resolves on both ends,
so the claim counts one constraint entity, but the code spawns none. -/
theorem C4_counterexample :
    ((spawn_robot s0 c0 base7 cr4).entities.countP isJointNodeB = 0)
    ∧ (cr4.joints.filter fun j =>
        (cr4.links.any fun l => l.name == j.parent)
        && (cr4.links.any fun l => l.name == j.child)).length = 1 := by
  constructor
  · rfl
  · rfl

/-- Invariant on spawned entities: a link body carries the name-determined
body kind and has no scene parent; a constraint node has no scene parent. -/
def EntityFacts (st : SpawnState) : Prop :=
  ∀ e ∈ st.entities,
    (∀ n b mp, e.kind = EntityKind.linkBody n b mp → b = bodyFor n ∧ e.parent = none)
    ∧ (∀ cst, e.kind = EntityKind.jointNode cst → e.parent = none)

/-- `spawnVisual` preserves the entity invariant. -/
theorem entityFacts_spawnVisual (s c : ℚ → ℚ) (lid : Nat) (st : SpawnState) (v : Visual)
    (h : EntityFacts st) : EntityFacts (spawnVisual s c lid st v) := by
  intro e he
  simp only [spawnVisual, List.mem_append, List.mem_singleton] at he
  rcases he with h1 | rfl
  · exact h e h1
  · exact ⟨fun n b mp hk => (nomatch hk), fun cst hk => (nomatch hk)⟩

/-- `spawnCollision` preserves the entity invariant. -/
theorem entityFacts_spawnCollision (s c : ℚ → ℚ) (lid : Nat) (st : SpawnState) (col : Collision)
    (h : EntityFacts st) : EntityFacts (spawnCollision s c lid st col) := by
  intro e he
  simp only [spawnCollision, List.mem_append, List.mem_singleton] at he
  rcases he with h1 | rfl
  · exact h e h1
  · exact ⟨fun n b mp hk => (nomatch hk), fun cst hk => (nomatch hk)⟩

/-- `spawnLink` preserves the entity invariant. -/
theorem entityFacts_spawnLink (s c : ℚ → ℚ) (base : Transform) (st : SpawnState) (link : Link)
    (h : EntityFacts st) : EntityFacts (spawnLink s c base st link) := by
  unfold spawnLink
  dsimp only
  refine foldl_pres EntityFacts _
    (fun st2 a h2 => entityFacts_spawnCollision s c st.nextId st2 a h2) link.collision _ ?_
  refine foldl_pres EntityFacts _
    (fun st2 a h2 => entityFacts_spawnVisual s c st.nextId st2 a h2) link.visual _ ?_
  intro e he
  simp only [List.mem_append, List.mem_singleton] at he
  rcases he with h1 | rfl
  · exact h e h1
  · refine ⟨fun n b mp hk => ?_, fun cst hk => nomatch hk⟩
    cases hk
    exact ⟨rfl, rfl⟩

/-- `processJoint` preserves the entity invariant. -/
theorem entityFacts_processJoint (s c : ℚ → ℚ) (st : SpawnState) (j : Joint)
    (h : EntityFacts st) : EntityFacts (processJoint s c st j) := by
  unfold processJoint
  split
  case _ pe ce _ =>
    dsimp only
    split
    · split
      · intro e he
        simp only [List.mem_append, List.mem_singleton] at he
        rcases he with h1 | rfl
        · exact h e h1
        · exact ⟨fun n b mp hk => (nomatch hk), fun cst hk => rfl⟩
      · intro e he
        simp only [List.mem_append, List.mem_singleton] at he
        rcases he with h1 | rfl
        · exact h e h1
        · exact ⟨fun n b mp hk => (nomatch hk), fun cst hk => rfl⟩
    · split
      · intro e he
        exact h e he
      · intro e he
        exact h e he
  case _ => exact h

/-- Every entity of a spawned robot satisfies the entity invariant. -/
theorem entityFacts_spawn (s c : ℚ → ℚ) (base : Transform) (robot : Robot) :
    EntityFacts (spawn_robot s c base robot) := by
  unfold spawn_robot
  refine foldl_pres EntityFacts _
    (fun st a hst => entityFacts_processJoint s c st a hst) robot.joints _ ?_
  refine foldl_pres EntityFacts _
    (fun st a hst => entityFacts_spawnLink s c base st a hst) robot.links _ ?_
  intro e he
  exact absurd he (List.not_mem_nil e)

/-- C5 (amended): the root is identified by the NAME `base_link`, not by
file position: every spawned link body named `base_link` is Kinematic and
every other link body is Dynamic, wherever it occurs in the file. -/
theorem C5_body_kinds (s c : ℚ → ℚ) (base : Transform) (robot : Robot) (e : Entity)
    (he : e ∈ (spawn_robot s c base robot).entities) (n : String) (b : RigidBody)
    (mp : MassProps) (hk : e.kind = EntityKind.linkBody n b mp) :
    (n = "base_link" → b = RigidBody.Kinematic)
    ∧ (n ≠ "base_link" → b = RigidBody.Dynamic) := by
  have hb := ((entityFacts_spawn s c base robot) e he).1 n b mp hk
  constructor
  · intro hn
    rw [hb.1]
    simp [bodyFor, hn]
  · intro hn
    rw [hb.1]
    simp [bodyFor, hn]

/-- C5 witness: the body-kind theorem applied to the single-link robot. -/
theorem C5_witness :
    ((⟨0, none, EntityKind.linkBody "base_link" RigidBody.Kinematic
        (link_to_mass_properties (mkLink "base_link"))⟩ : Entity)
      ∈ (spawn_robot s0 c0 base7 ⟨[mkLink "base_link"], []⟩).entities)
    ∧ (("base_link" = "base_link" → RigidBody.Kinematic = RigidBody.Kinematic)
       ∧ ("base_link" ≠ "base_link" → RigidBody.Kinematic = RigidBody.Dynamic)) :=
  ⟨by decide, C5_body_kinds s0 c0 base7 ⟨[mkLink "base_link"], []⟩
    ⟨0, none, EntityKind.linkBody "base_link" RigidBody.Kinematic
      (link_to_mass_properties (mkLink "base_link"))⟩ (by decide)
    "base_link" RigidBody.Kinematic (link_to_mass_properties (mkLink "base_link")) rfl⟩

/-- A robot whose first link in file order is not named `base_link`. -/
def cr5 : Robot := ⟨[mkLink "armA", mkLink "base_link"], []⟩

/-- C5 counterexample: the first link in file order, `armA`, is spawned
Dynamic, while the later link named `base_link` is the Kinematic root, so
the root is not identified as the first link in file order. -/
theorem C5_counterexample :
    ((spawn_robot s0 c0 base7 cr5).entities.map Entity.kind
      = [EntityKind.linkBody "armA" RigidBody.Dynamic
           (link_to_mass_properties (mkLink "armA")),
         EntityKind.linkBody "base_link" RigidBody.Kinematic
           (link_to_mass_properties (mkLink "base_link"))])
    ∧ RigidBody.Dynamic ≠ RigidBody.Static
    ∧ RigidBody.Dynamic ≠ RigidBody.Kinematic := by
  exact ⟨by decide, by decide, by decide⟩

/-- C7 (amended): no intermediate joint node is inserted in the scene
hierarchy: every link body and every constraint node is spawned with no
scene parent (in particular no link node sits under a joint node and no
link sits under a link). -/
theorem C7_flat_hierarchy (s c : ℚ → ℚ) (base : Transform) (robot : Robot) (e : Entity)
    (he : e ∈ (spawn_robot s c base robot).entities) :
    (∀ n b mp, e.kind = EntityKind.linkBody n b mp → e.parent = none)
    ∧ (∀ cst, e.kind = EntityKind.jointNode cst → e.parent = none) := by
  have h := entityFacts_spawn s c base robot e he
  exact ⟨fun n b mp hk => (h.1 n b mp hk).2, h.2⟩

/-- A two-link robot with one connected Fixed joint. -/
def cr7 : Robot :=
  ⟨[mkLink "base_link", mkLink "arm"],
   [mkJoint JointType.fixed "base_link" "arm" Pose.zero]⟩

/-- C7 witness: the flat-hierarchy theorem applied to the constraint node
of `cr7`. -/
theorem C7_witness :
    ((⟨2, none, EntityKind.jointNode (Constraint.fixed ⟨0, 1⟩)⟩ : Entity)
      ∈ (spawn_robot s0 c0 base7 cr7).entities)
    ∧ ((∀ n b mp, (EntityKind.jointNode (Constraint.fixed ⟨0, 1⟩))
          = EntityKind.linkBody n b mp → (none : Option Nat) = none)
       ∧ (∀ cst, (EntityKind.jointNode (Constraint.fixed ⟨0, 1⟩))
          = EntityKind.jointNode cst → (none : Option Nat) = none)) :=
  ⟨by decide, C7_flat_hierarchy s0 c0 base7 cr7
    ⟨2, none, EntityKind.jointNode (Constraint.fixed ⟨0, 1⟩)⟩ (by decide)⟩

/-- C7 counterexample: in `cr7` one connected joint exists and its
constraint entity is spawned, yet every spawned entity, links and
constraint node alike, has no scene parent, so the parent link does not
parent a joint node and no joint node parents the child link node. -/
theorem C7_counterexample :
    (spawn_robot s0 c0 base7 cr7).entities.map (fun e => (e.parent, isJointNodeB e))
      = [(none, false), (none, false), (none, true)] := by
  decide

/-- A joint whose parent or child does not resolve is a complete no-op:
no constraint, no transform update, no log. -/
theorem processJoint_skip (s c : ℚ → ℚ) (st : SpawnState) (j : Joint)
    (h : resolveB st j = false) : processJoint s c st j = st := by
  cases hp : flook st.linkEntities j.parent with
  | none => simp [processJoint, hp]
  | some pe =>
    cases hc : flook st.linkEntities j.child with
    | none => simp [processJoint, hp, hc]
    | some ce =>
      rw [resolveB, hp, hc] at h
      simp at h

/-- The link loop spawns an unparented body entity for every parsed link. -/
theorem spawnLink_has_entity (s c : ℚ → ℚ) (base : Transform) (st : SpawnState) (link : Link) :
    (⟨st.nextId, none, EntityKind.linkBody link.name (bodyFor link.name)
        (link_to_mass_properties link)⟩ : Entity) ∈ (spawnLink s c base st link).entities := by
  unfold spawnLink
  dsimp only
  refine StExt.mem_entities
    (StExt.trans (stExt_foldl _ (stExt_spawnVisual s c st.nextId) link.visual _)
      (stExt_foldl _ (stExt_spawnCollision s c st.nextId) link.collision _)) ?_
  exact List.mem_append_right _ (List.mem_singleton.2 rfl)

/-- Every link of the list fold has its body entity in the result. -/
theorem link_entity_exists (s c : ℚ → ℚ) (base : Transform) :
    ∀ (links : List Link) (st : SpawnState) (l : Link), l ∈ links →
      ∃ e ∈ (links.foldl (spawnLink s c base) st).entities,
        e.kind = EntityKind.linkBody l.name (bodyFor l.name) (link_to_mass_properties l) := by
  intro links
  induction links with
  | nil => intro st l hl; exact absurd hl (List.not_mem_nil l)
  | cons l0 ls ih =>
    intro st l hl
    rw [List.foldl_cons]
    rcases List.mem_cons.1 hl with rfl | hmem
    · refine ⟨_, StExt.mem_entities
        (stExt_foldl _ (stExt_spawnLink s c base) ls (spawnLink s c base st l))
        (spawnLink_has_entity s c base st l), rfl⟩
    · exact ih (spawnLink s c base st l0) l hmem

/-- Links used to instantiate C3: a root and an orphan child. -/
def cr3links : List Link := [mkLink "base_link", mkLink "orphan"]

/-- A joint whose parent name `ghost` resolves to no link. -/
def cr3joint : Joint := mkJoint JointType.fixed "ghost" "orphan" Pose.zero

/-- C3 (amended): a joint whose parent or child name does not resolve is
skipped SILENTLY: the whole spawn result is the one of the robot without
that joint (so no constraint, no transform update and no log comes from
it), and the child link, when it exists, is still instantiated as a link
body entity. -/
theorem C3_dangling_joint (s c : ℚ → ℚ) (base : Transform) (links : List Link)
    (pre post : List Joint) (j : Joint)
    (h : ((links.any fun l => l.name == j.parent)
          && (links.any fun l => l.name == j.child)) = false) :
    spawn_robot s c base ⟨links, pre ++ j :: post⟩
      = spawn_robot s c base ⟨links, pre ++ post⟩
    ∧ ((links.any fun l => l.name == j.child) = true →
        ∃ e ∈ (spawn_robot s c base ⟨links, pre ++ j :: post⟩).entities,
          ∃ mp, e.kind = EntityKind.linkBody j.child (bodyFor j.child) mp) := by
  constructor
  · unfold spawn_robot
    dsimp only
    rw [List.foldl_append, List.foldl_append, List.foldl_cons]
    have hle : (pre.foldl (processJoint s c)
        (links.foldl (spawnLink s c base) SpawnState.init)).linkEntities
        = (links.foldl (spawnLink s c base) SpawnState.init).linkEntities :=
      foldl_proj _ SpawnState.linkEntities (processJoint_linkEntities s c) pre _
    have hres : resolveB (pre.foldl (processJoint s c)
        (links.foldl (spawnLink s c base) SpawnState.init)) j = false := by
      unfold resolveB
      rw [hle, flook_linkEntities_fold, flook_linkEntities_fold]
      simpa [SpawnState.init, flook] using h
    rw [processJoint_skip s c _ j hres]
  · intro hc
    obtain ⟨l, hl, hname⟩ := List.any_eq_true.1 hc
    have hn : l.name = j.child := by simpa using hname
    obtain ⟨e, he, hk⟩ := link_entity_exists s c base links SpawnState.init l hl
    refine ⟨e, ?_, ⟨link_to_mass_properties l, ?_⟩⟩
    · unfold spawn_robot
      exact StExt.mem_entities
        (stExt_foldl _ (stExt_processJoint s c) (pre ++ j :: post) _) he
    · rw [hk, hn]

/-- C3 witness: the dangling-joint theorem applied to the `ghost` joint of
`cr3links`. -/
theorem C3_witness :
    (((cr3links.any fun l => l.name == cr3joint.parent)
       && (cr3links.any fun l => l.name == cr3joint.child)) = false)
    ∧ (spawn_robot s0 c0 base7 ⟨cr3links, [] ++ cr3joint :: []⟩
        = spawn_robot s0 c0 base7 ⟨cr3links, [] ++ []⟩
       ∧ ((cr3links.any fun l => l.name == cr3joint.child) = true →
           ∃ e ∈ (spawn_robot s0 c0 base7 ⟨cr3links, [] ++ cr3joint :: []⟩).entities,
             ∃ mp, e.kind = EntityKind.linkBody cr3joint.child (bodyFor cr3joint.child) mp)) :=
  ⟨by decide, C3_dangling_joint s0 c0 base7 cr3links [] [] cr3joint (by decide)⟩

/-- C3 counterexample: spawning the robot with the dangling `ghost` joint
produces an empty log stream, so the joint is not skipped "with a
warning"; the joint produces no constraint and both links are still
instantiated. -/
theorem C3_counterexample :
    (spawn_robot s0 c0 base7 ⟨cr3links, [cr3joint]⟩).logs = []
    ∧ (spawn_robot s0 c0 base7 ⟨cr3links, [cr3joint]⟩).entities.countP isJointNodeB = 0
    ∧ (spawn_robot s0 c0 base7 ⟨cr3links, [cr3joint]⟩).entities.countP isLinkBodyB = 2 := by
  exact ⟨rfl, rfl, rfl⟩

/-- Every collision entry of the collision fold spawns its child entity
under the link entity `lid`, and its resolver logs reach the log stream. -/
theorem collision_child_exists (s c : ℚ → ℚ) (lid : Nat) :
    ∀ (cols : List Collision) (st : SpawnState) (col : Collision), col ∈ cols →
      ∃ i, ((⟨i, some lid, EntityKind.collisionChild (collision_to_mesh col).1
              (urdf_to_transform s c col.origin (some col.geometry))⟩ : Entity)
            ∈ (cols.foldl (spawnCollision s c lid) st).entities)
        ∧ ∀ lg ∈ (collision_to_mesh col).2,
            lg ∈ (cols.foldl (spawnCollision s c lid) st).logs := by
  intro cols
  induction cols with
  | nil => intro st col hc; exact absurd hc (List.not_mem_nil col)
  | cons c0 cs ih =>
    intro st col hc
    rw [List.foldl_cons]
    rcases List.mem_cons.1 hc with rfl | hmem
    · have hext := stExt_foldl _ (stExt_spawnCollision s c lid) cs (spawnCollision s c lid st col)
      refine ⟨st.nextId, hext.mem_entities ?_, fun lg hlg => hext.mem_logs ?_⟩
      · exact List.mem_append_right _ (List.mem_singleton.2 rfl)
      · exact List.mem_append_right _ hlg
    · exact ih (spawnCollision s c lid st c0) col hmem

/-- Every visual entry of the visual fold spawns its child entity under the
link entity `lid`, and its resolver logs reach the log stream. -/
theorem visual_child_exists (s c : ℚ → ℚ) (lid : Nat) :
    ∀ (vs : List Visual) (st : SpawnState) (v : Visual), v ∈ vs →
      ∃ i, ((⟨i, some lid, EntityKind.visualChild (visual_to_mesh_and_material v).1.1
              (visual_to_mesh_and_material v).1.2
              (urdf_to_transform s c v.origin (some v.geometry))⟩ : Entity)
            ∈ (vs.foldl (spawnVisual s c lid) st).entities)
        ∧ ∀ lg ∈ (visual_to_mesh_and_material v).2,
            lg ∈ (vs.foldl (spawnVisual s c lid) st).logs := by
  intro vs
  induction vs with
  | nil => intro st v hv; exact absurd hv (List.not_mem_nil v)
  | cons v0 vs ih =>
    intro st v hv
    rw [List.foldl_cons]
    rcases List.mem_cons.1 hv with rfl | hmem
    · have hext := stExt_foldl _ (stExt_spawnVisual s c lid) vs (spawnVisual s c lid st v)
      refine ⟨st.nextId, hext.mem_entities ?_, fun lg hlg => hext.mem_logs ?_⟩
      · exact List.mem_append_right _ (List.mem_singleton.2 rfl)
      · exact List.mem_append_right _ hlg
    · exact ih (spawnVisual s c lid st v0) v hmem

/-- `spawnLink` spawns a child entity for each collision of the link. -/
theorem spawnLink_collision_child (s c : ℚ → ℚ) (base : Transform) (st : SpawnState)
    (link : Link) (col : Collision) (hc : col ∈ link.collision) :
    ∃ i, ((⟨i, some st.nextId, EntityKind.collisionChild (collision_to_mesh col).1
            (urdf_to_transform s c col.origin (some col.geometry))⟩ : Entity)
          ∈ (spawnLink s c base st link).entities)
      ∧ ∀ lg ∈ (collision_to_mesh col).2, lg ∈ (spawnLink s c base st link).logs := by
  unfold spawnLink
  dsimp only
  exact collision_child_exists s c st.nextId link.collision _ col hc

/-- `spawnLink` spawns a child entity for each visual of the link. -/
theorem spawnLink_visual_child (s c : ℚ → ℚ) (base : Transform) (st : SpawnState)
    (link : Link) (v : Visual) (hv : v ∈ link.visual) :
    ∃ i, ((⟨i, some st.nextId, EntityKind.visualChild (visual_to_mesh_and_material v).1.1
            (visual_to_mesh_and_material v).1.2
            (urdf_to_transform s c v.origin (some v.geometry))⟩ : Entity)
          ∈ (spawnLink s c base st link).entities)
      ∧ ∀ lg ∈ (visual_to_mesh_and_material v).2, lg ∈ (spawnLink s c base st link).logs := by
  unfold spawnLink
  dsimp only
  obtain ⟨i, hm, hl⟩ := visual_child_exists s c st.nextId link.visual
    { st with
      nextId := st.nextId + 1,
      entities := st.entities
        ++ [⟨st.nextId, none, .linkBody link.name (bodyFor link.name)
              (link_to_mass_properties link)⟩],
      linkEntities := (link.name, st.nextId) :: st.linkEntities,
      linkTransforms :=
        (link.name, initialTransformFor base link.name) :: st.linkTransforms } v hv
  have hext := stExt_foldl _ (stExt_spawnCollision s c st.nextId) link.collision
    (link.visual.foldl (spawnVisual s c st.nextId)
      { st with
        nextId := st.nextId + 1,
        entities := st.entities
          ++ [⟨st.nextId, none, .linkBody link.name (bodyFor link.name)
                (link_to_mass_properties link)⟩],
        linkEntities := (link.name, st.nextId) :: st.linkEntities,
        linkTransforms :=
          (link.name, initialTransformFor base link.name) :: st.linkTransforms })
  exact ⟨i, hext.mem_entities hm, fun lg hlg => hext.mem_logs (hl lg hlg)⟩

/-- The spawned robot contains the collision child of every collision
entry of every link, together with its resolver logs. -/
theorem robot_collision_child (s c : ℚ → ℚ) (base : Transform) (robot : Robot)
    (link : Link) (col : Collision) (hl : link ∈ robot.links) (hc : col ∈ link.collision) :
    ∃ i lid, ((⟨i, some lid, EntityKind.collisionChild (collision_to_mesh col).1
                (urdf_to_transform s c col.origin (some col.geometry))⟩ : Entity)
              ∈ (spawn_robot s c base robot).entities)
      ∧ ∀ lg ∈ (collision_to_mesh col).2, lg ∈ (spawn_robot s c base robot).logs := by
  obtain ⟨pre, post, hsplit⟩ := List.append_of_mem hl
  unfold spawn_robot
  rw [hsplit, List.foldl_append, List.foldl_cons]
  obtain ⟨i, hm, hlog⟩ := spawnLink_collision_child s c base
    (pre.foldl (spawnLink s c base) SpawnState.init) link col hc
  have hext : StExt (spawnLink s c base (pre.foldl (spawnLink s c base) SpawnState.init) link)
      (robot.joints.foldl (processJoint s c)
        (post.foldl (spawnLink s c base)
          (spawnLink s c base (pre.foldl (spawnLink s c base) SpawnState.init) link))) :=
    StExt.trans (stExt_foldl _ (stExt_spawnLink s c base) post _)
      (stExt_foldl _ (stExt_processJoint s c) robot.joints _)
  exact ⟨i, _, hext.mem_entities hm, fun lg hlg => hext.mem_logs (hlog lg hlg)⟩

/-- The spawned robot contains the visual child of every visual entry of
every link, together with its resolver logs. -/
theorem robot_visual_child (s c : ℚ → ℚ) (base : Transform) (robot : Robot)
    (link : Link) (v : Visual) (hl : link ∈ robot.links) (hv : v ∈ link.visual) :
    ∃ i lid, ((⟨i, some lid, EntityKind.visualChild (visual_to_mesh_and_material v).1.1
                (visual_to_mesh_and_material v).1.2
                (urdf_to_transform s c v.origin (some v.geometry))⟩ : Entity)
              ∈ (spawn_robot s c base robot).entities)
      ∧ ∀ lg ∈ (visual_to_mesh_and_material v).2, lg ∈ (spawn_robot s c base robot).logs := by
  obtain ⟨pre, post, hsplit⟩ := List.append_of_mem hl
  unfold spawn_robot
  rw [hsplit, List.foldl_append, List.foldl_cons]
  obtain ⟨i, hm, hlog⟩ := spawnLink_visual_child s c base
    (pre.foldl (spawnLink s c base) SpawnState.init) link v hv
  have hext : StExt (spawnLink s c base (pre.foldl (spawnLink s c base) SpawnState.init) link)
      (robot.joints.foldl (processJoint s c)
        (post.foldl (spawnLink s c base)
          (spawnLink s c base (pre.foldl (spawnLink s c base) SpawnState.init) link))) :=
    StExt.trans (stExt_foldl _ (stExt_spawnLink s c base) post _)
      (stExt_foldl _ (stExt_processJoint s c) robot.joints _)
  exact ⟨i, _, hext.mem_entities hm, fun lg hlg => hext.mem_logs (hlog lg hlg)⟩

/-- C8 (amended): for a Visual or Collision entry whose geometry variant is
unsupported (the capsule variant), a warning is logged and the build
completes, but the entry is not skipped: a child entity is still spawned
under the link, carrying the default (null) mesh handle, the default
material handle for visuals, and for collisions the convex-decomposition
collider constructor on the default handle. -/
theorem C8_unsupported_geometry (s c : ℚ → ℚ) (base : Transform) (robot : Robot)
    (link : Link) (hl : link ∈ robot.links) (radius len : ℚ) :
    (∀ v ∈ link.visual, v.geometry = Geometry.capsule radius len →
       LogMsg.warnGeometry v.geometry ∈ (spawn_robot s c base robot).logs
       ∧ ∃ i lid, ((⟨i, some lid, EntityKind.visualChild MeshHandle.defaultHandle
            MatHandle.defaultMat (urdf_to_transform s c v.origin (some v.geometry))⟩ : Entity)
          ∈ (spawn_robot s c base robot).entities))
    ∧ (∀ col ∈ link.collision, col.geometry = Geometry.capsule radius len →
       LogMsg.warnGeometry col.geometry ∈ (spawn_robot s c base robot).logs
       ∧ ∃ i lid, ((⟨i, some lid, EntityKind.collisionChild MeshHandle.defaultHandle
            (urdf_to_transform s c col.origin (some col.geometry))⟩ : Entity)
          ∈ (spawn_robot s c base robot).entities)) := by
  constructor
  · intro v hv hg
    obtain ⟨i, lid, hm, hlog⟩ := robot_visual_child s c base robot link v hl hv
    have hres : visual_to_mesh_and_material v
        = ((MeshHandle.defaultHandle, MatHandle.defaultMat), [.warnGeometry v.geometry]) := by
      rw [visual_to_mesh_and_material, hg]
    rw [hres] at hm hlog
    exact ⟨hlog _ (List.mem_singleton.2 rfl), ⟨i, lid, hm⟩⟩
  · intro col hc hg
    obtain ⟨i, lid, hm, hlog⟩ := robot_collision_child s c base robot link col hl hc
    have hres : collision_to_mesh col
        = (MeshHandle.defaultHandle, [.warnGeometry col.geometry]) := by
      rw [collision_to_mesh, hg]
    rw [hres] at hm hlog
    exact ⟨hlog _ (List.mem_singleton.2 rfl), ⟨i, lid, hm⟩⟩

/-- A robot whose single link carries one capsule visual and one capsule
collision. -/
def c8robot : Robot :=
  ⟨[⟨"base_link", zeroInertial,
     [⟨Pose.zero, Geometry.capsule 1 2, none⟩],
     [⟨Pose.zero, Geometry.capsule 1 2⟩]⟩], []⟩

/-- C8 witness: the unsupported-geometry theorem applied to the capsule
entries of `c8robot`. -/
theorem C8_witness :
    ((⟨"base_link", zeroInertial, [⟨Pose.zero, Geometry.capsule 1 2, none⟩],
        [⟨Pose.zero, Geometry.capsule 1 2⟩]⟩ : Link) ∈ c8robot.links)
    ∧ ((⟨Pose.zero, Geometry.capsule 1 2⟩ : Collision).geometry = Geometry.capsule 1 2)
    ∧ (LogMsg.warnGeometry (Geometry.capsule 1 2) ∈ (spawn_robot s0 c0 base7 c8robot).logs
       ∧ ∃ i lid, ((⟨i, some lid, EntityKind.collisionChild MeshHandle.defaultHandle
            (urdf_to_transform s0 c0 Pose.zero (some (Geometry.capsule 1 2)))⟩ : Entity)
          ∈ (spawn_robot s0 c0 base7 c8robot).entities)) :=
  ⟨List.mem_singleton.2 rfl, rfl,
   (C8_unsupported_geometry s0 c0 base7 c8robot _ (List.mem_singleton.2 rfl) 1 2).2
     ⟨Pose.zero, Geometry.capsule 1 2⟩ (List.mem_singleton.2 rfl) rfl⟩

/-- C8 counterexample: for the capsule collision of `c8robot` the claim
says no collider is attached, yet exactly one collision child entity (with
the convex-decomposition constructor and the default mesh handle) is
spawned; the warning is logged and the build completes. -/
theorem C8_counterexample :
    ((spawn_robot s0 c0 base7 c8robot).entities.countP isCollisionChildB = 1)
    ∧ (spawn_robot s0 c0 base7 c8robot).logs
        = [LogMsg.warnGeometry (Geometry.capsule 1 2),
           LogMsg.warnGeometry (Geometry.capsule 1 2)] := by
  exact ⟨rfl, rfl⟩

/-- `processJoint` writes the link-transform map only at the child name. -/
theorem processJoint_linkTransforms_ne (s c : ℚ → ℚ) (st : SpawnState) (j : Joint)
    (n : String) (h : n ≠ j.child) :
    flook (processJoint s c st j).linkTransforms n = flook st.linkTransforms n := by
  cases hp : flook st.linkEntities j.parent with
  | none => simp [processJoint, hp]
  | some pe =>
    cases hc : flook st.linkEntities j.child with
    | none => simp [processJoint, hp, hc]
    | some ce =>
      cases hpt : flook st.linkTransforms j.parent with
      | none =>
        cases hu : (urdf_to_joint pe ce j).1 <;>
          simp [processJoint, hp, hc, hpt, hu]
      | some pt =>
        cases hu : (urdf_to_joint pe ce j).1 <;>
          simp [processJoint, hp, hc, hpt, hu, flook, h]

/-- When a joint resolves and its parent transform is present, `processJoint`
records parent-transform times joint-origin-transform for the child. -/
theorem processJoint_linkTransforms_resolved (s c : ℚ → ℚ) (st : SpawnState) (j : Joint)
    (pe ce : Nat) (pt : Transform)
    (hp : flook st.linkEntities j.parent = some pe)
    (hc : flook st.linkEntities j.child = some ce)
    (hpt : flook st.linkTransforms j.parent = some pt) :
    flook (processJoint s c st j).linkTransforms j.child
      = some (pt * urdf_to_transform s c j.origin none) := by
  cases hu : (urdf_to_joint pe ce j).1 <;>
    simp [processJoint, hp, hc, hpt, hu, flook]

/-- The ancestor chain relation: the listed joints connect `root` down to
`target`, each joint hanging from the child of the one before. -/
def chainLinked : String → List Joint → String → Prop
  | root, [], target => root = target
  | root, j :: rest, target => j.parent = root ∧ chainLinked j.child rest target

/-- Transform accumulation along the joint loop: if the joints of a chain
from `root` to `target` occur in order in the joint list, each chain name
is written by no other joint, nothing writes `root`, and every chain joint
resolves, then the final map entry of `target` is the left-to-right product
of the chain joint-origin transforms applied to the start value of `root`. -/
theorem chain_fold (s c : ℚ → ℚ) :
    ∀ (js : List Joint) (chain : List Joint) (root target : String) (st : SpawnState)
      (T : Transform),
      flook st.linkTransforms root = some T →
      chain.Sublist js →
      chainLinked root chain target →
      (∀ j ∈ js, j.child ≠ root) →
      (∀ jc ∈ chain, js.filter (fun j => j.child == jc.child) = [jc]) →
      (∀ jc ∈ chain, (flook st.linkEntities jc.parent).isSome
                      ∧ (flook st.linkEntities jc.child).isSome) →
      flook ((js.foldl (processJoint s c) st)).linkTransforms target
        = some (chain.foldl (fun t j => t * urdf_to_transform s c j.origin none) T) := by
  intro js
  induction js with
  | nil =>
    intro chain root target st T hroot hsub hlink _ _ _
    have hchain : chain = [] := List.sublist_nil.1 hsub
    subst hchain
    have : root = target := hlink
    subst this
    exact hroot
  | cons j rest ih =>
    intro chain root target st T hroot hsub
    cases hsub
    case cons =>
      rename_i hsub2
      intro hlink hnoroot huniq hres
      rw [List.foldl_cons]
      refine ih chain root target (processJoint s c st j) T ?_ hsub2 hlink ?_ ?_ ?_
      · rw [processJoint_linkTransforms_ne s c st j root
          (fun h => hnoroot j (List.mem_cons_self j rest) h.symm)]
        exact hroot
      · exact fun j2 h2 => hnoroot j2 (List.mem_cons_of_mem j h2)
      · intro jc hjc
        have hfil := huniq jc hjc
        rw [List.filter_cons] at hfil
        split at hfil
        case isTrue hpj =>
          have hjeq : j = jc ∧ rest.filter (fun j2 => j2.child == jc.child) = [] :=
            ⟨(List.cons_eq_cons.1 hfil).1, (List.cons_eq_cons.1 hfil).2⟩
          have hjcmem : jc ∈ rest := hsub2.mem hjc
          have hjcfil : jc ∈ rest.filter (fun j2 => j2.child == jc.child) :=
            List.mem_filter.2 ⟨hjcmem, by simp⟩
          rw [hjeq.2] at hjcfil
          exact absurd hjcfil (List.not_mem_nil jc)
        case isFalse => exact hfil
      · intro jc hjc
        rw [processJoint_linkEntities]
        exact hres jc hjc
    case cons₂ =>
      rename_i chain2 hsub2
      intro hlink hnoroot huniq hres
      obtain ⟨hpar, hlink2⟩ := hlink
      obtain ⟨hpe, hce⟩ := hres j (List.mem_cons_self j chain2)
      obtain ⟨pe, hpe⟩ := Option.isSome_iff_exists.1 hpe
      obtain ⟨ce, hce⟩ := Option.isSome_iff_exists.1 hce
      have hfilj := huniq j (List.mem_cons_self j chain2)
      rw [List.filter_cons] at hfilj
      have hfiljT : (j.child == j.child) = true := by simp
      rw [if_pos hfiljT] at hfilj
      have hrestnil : rest.filter (fun j2 => j2.child == j.child) = [] :=
        (List.cons_eq_cons.1 hfilj).2
      have hnochild : ∀ j2 ∈ rest, j2.child ≠ j.child := by
        intro j2 h2 heq
        have hcon := List.filter_eq_nil_iff.1 hrestnil j2 h2
        simp [heq] at hcon
      rw [List.foldl_cons, List.foldl_cons]
      refine ih chain2 j.child target (processJoint s c st j)
        (T * urdf_to_transform s c j.origin none) ?_ hsub2 hlink2 ?_ ?_ ?_
      · exact processJoint_linkTransforms_resolved s c st j pe ce T hpe hce
          (by rw [hpar]; exact hroot)
      · exact hnochild
      · intro jc hjc
        have hfil := huniq jc (List.mem_cons_of_mem j hjc)
        rw [List.filter_cons] at hfil
        split at hfil
        case isTrue hpj =>
          have hjeq : j = jc ∧ rest.filter (fun j2 => j2.child == jc.child) = [] :=
            ⟨(List.cons_eq_cons.1 hfil).1, (List.cons_eq_cons.1 hfil).2⟩
          have hjcmem : jc ∈ rest := hsub2.mem hjc
          have hjcfil : jc ∈ rest.filter (fun j2 => j2.child == jc.child) :=
            List.mem_filter.2 ⟨hjcmem, by simp⟩
          rw [hjeq.2] at hjcfil
          exact absurd hjcfil (List.not_mem_nil jc)
        case isFalse => exact hfil
      · intro jc hjc
        rw [processJoint_linkEntities]
        exact hres jc (List.mem_cons_of_mem j hjc)

/-- C1 (amended): when the root link is named `base_link`, the ancestor
joints of a link occur in the joint list in parent-before-child order,
each link on the path is the child of exactly one joint, nothing re-parents
`base_link`, and every path joint resolves, then the world transform
assigned to the link equals the base transform composed with the ancestor
joint-origin transforms in root-to-link order. -/
theorem C1_world_transform_chain (s c : ℚ → ℚ) (base : Transform) (robot : Robot)
    (chain : List Joint) (target : String)
    (hbase : (robot.links.any fun l => l.name == "base_link") = true)
    (hlinked : chainLinked "base_link" chain target)
    (hsub : chain.Sublist robot.joints)
    (hroot : ∀ j ∈ robot.joints, j.child ≠ "base_link")
    (huniq : ∀ jc ∈ chain, robot.joints.filter (fun j => j.child == jc.child) = [jc])
    (hres : ∀ jc ∈ chain, (robot.links.any fun l => l.name == jc.parent) = true
                          ∧ (robot.links.any fun l => l.name == jc.child) = true) :
    assignedTransform (spawn_robot s c base robot) target
      = some (chain.foldl (fun t j => t * urdf_to_transform s c j.origin none) base) := by
  unfold spawn_robot assignedTransform
  refine chain_fold s c robot.joints chain "base_link" target
    (robot.links.foldl (spawnLink s c base) SpawnState.init) base ?_ hsub hlinked hroot
    huniq ?_
  · rw [flook_linkTransforms_fold]
    simp [hbase, initialTransformFor]
  · intro jc hjc
    constructor
    · rw [flook_linkEntities_fold]
      simp [(hres jc hjc).1]
    · rw [flook_linkEntities_fold]
      simp [(hres jc hjc).2]

/-- A serial-chain robot whose joints are listed in tree order. -/
def c1wRobot : Robot :=
  ⟨[mkLink "base_link", mkLink "A", mkLink "B"],
   [mkJoint JointType.fixed "base_link" "A" Pose.zero,
    mkJoint JointType.fixed "A" "B" Pose.zero]⟩

/-- C1 witness: the chain theorem applied to the serial chain `c1wRobot`. -/
theorem C1_witness :
    ((c1wRobot.links.any fun l => l.name == "base_link") = true)
    ∧ chainLinked "base_link" c1wRobot.joints "B"
    ∧ c1wRobot.joints.Sublist c1wRobot.joints
    ∧ (∀ j ∈ c1wRobot.joints, j.child ≠ "base_link")
    ∧ (∀ jc ∈ c1wRobot.joints,
        c1wRobot.joints.filter (fun j => j.child == jc.child) = [jc])
    ∧ (∀ jc ∈ c1wRobot.joints,
        (c1wRobot.links.any fun l => l.name == jc.parent) = true
        ∧ (c1wRobot.links.any fun l => l.name == jc.child) = true)
    ∧ assignedTransform (spawn_robot s0 c0 base7 c1wRobot) "B"
        = some (c1wRobot.joints.foldl
            (fun t j => t * urdf_to_transform s0 c0 j.origin none) base7) :=
  ⟨by decide, ⟨rfl, rfl, rfl⟩, List.Sublist.refl _, by decide, by decide, by decide,
   C1_world_transform_chain s0 c0 base7 c1wRobot c1wRobot.joints "B" (by decide)
     ⟨rfl, rfl, rfl⟩ (List.Sublist.refl _) (by decide) (by decide) (by decide)⟩

/-- The serial-chain robot of `c1wRobot` with its joints listed out of
tree order: the joint of `B` comes before the joint of `A`. -/
def c1xRobot : Robot :=
  ⟨[mkLink "base_link", mkLink "A", mkLink "B"],
   [mkJoint JointType.fixed "A" "B" Pose.zero,
    mkJoint JointType.fixed "base_link" "A" Pose.zero]⟩

/-- C1 counterexample: with the joints out of tree order, the transform
assigned to `B` is the identity (translation z 0), while the base
transform composed along the tree path from the root has translation z 7,
so the assigned transform is not the claimed root-to-link product. -/
theorem C1_counterexample :
    assignedTransform (spawn_robot s0 c0 base7 c1xRobot) "B" = some Transform.IDENTITY
    ∧ ([mkJoint JointType.fixed "base_link" "A" Pose.zero,
        mkJoint JointType.fixed "A" "B" Pose.zero].foldl
          (fun t j => t * urdf_to_transform s0 c0 j.origin none) base7).translation.z = 7
    ∧ Transform.IDENTITY.translation.z = 0
    ∧ (0 : ℚ) ≠ 7 := by
  refine ⟨?_, ?_, rfl, by norm_num⟩
  · simp [spawn_robot, SpawnState.init, spawnLink, spawnVisual, spawnCollision, processJoint,
      flook, initialTransformFor, bodyFor, urdf_to_transform, fromEulerXYZ, quatRotX,
      quatRotY, quatRotZ, urdf_to_joint, assignedTransform, mkLink, mkJoint, base7, c1xRobot,
      Pose.zero, Vec3.zero, Vec3.one, Quat.one, Quat.mulVec3, Vec3.dotV, Vec3.cross,
      Transform.IDENTITY, link_to_mass_properties, zeroInertial, s0, c0]
  · norm_num [mkJoint, Pose.zero, urdf_to_transform, fromEulerXYZ, quatRotX, quatRotY,
      quatRotZ, s0, c0, base7, Vec3.zero, Vec3.one, Quat.one, Quat.mulVec3, Vec3.dotV,
      Vec3.cross]
